import Mathlib

/-!
Shallow embedding of `helpers/training.py` from the repository
"Classifying Geo-Referenced Photos and Satellite Imagery for Supporting
Terrain Classification".

Probabilities and metric values are modelled as rationals (`ℚ`), numpy
arrays as lists (2-D arrays as lists of rows), Python dicts as association
lists looked up from the front (first match wins, as in a dict where keys
are unique), and raised exceptions as `Except String` errors carrying the
exception class name.  External collaborators (the sklearn metric
functions) are passed in as an abstract `MetricsLib` record, mirroring the
spec's decision to treat the statistics library as out of scope.
-/

namespace Training

/-- Python dict subscript `d[k]` on a string-keyed dict: first binding wins
(keys are unique in an actual dict); `none` models a `KeyError`. -/
def dict_find {α : Type} (d : List (String × α)) (k : String) : Option α :=
  (d.find? (fun kv => kv.1 == k)).map (fun kv => kv.2)

/-- The parts of a keras `DataFrameIterator` that `training.py` reads:
`class_indices` (label string → class index), `classes` (per-sample true
class indices) and `filenames`. -/
structure FlowInfo where
  class_indices : List (String × Nat)
  classes : List Int
  filenames : List String
deriving DecidableEq

/-- `np.ndarray.flatten()` on a 2-D array: concatenate the rows. -/
def np_flatten (y : List (List ℚ)) : List ℚ :=
  y.flatten

/--
`verify_probabilities(y_probs, train_flow)` (training.py lines 64-68):

  train_indices = train_flow.class_indices
  if train_indices['0'] != 0 and train_flow['1'] != 1:
      return np.array([1. - el for el in y_probs.flatten()])
  return y_probs.flatten()

Looking up a missing label raises `KeyError`.  When the first conjunct is
true, Python evaluates the second conjunct `train_flow['1']`, which
subscripts the keras iterator object itself (not `train_indices`) with a
string; the iterator `__getitem__` compares that index against `len(self)`
and raises `TypeError` on a str/int comparison, so the complement branch
`np.array([1. - el for el in y_probs.flatten()])` is unreachable.
-/
def verify_probabilities (y_probs : List (List ℚ)) (train_flow : FlowInfo) :
    Except String (List ℚ) :=
  match dict_find train_flow.class_indices ("0") with
  | none => Except.error ("KeyError")
  | some i0 =>
    if i0 ≠ 0 then
      Except.error ("TypeError")
    else
      Except.ok (np_flatten y_probs)

/-- The spec-intended alignment check (spec §4.3 and §9: the second
conjunct was "likely a typo for train_indices['1']").  Modelled from the
spec: index 0 must map to label "0"; if misaligned, probabilities are
complemented. -/
def verify_probabilities_spec (y_probs : List (List ℚ)) (train_flow : FlowInfo) :
    Except String (List ℚ) :=
  match dict_find train_flow.class_indices ("0"),
        dict_find train_flow.class_indices ("1") with
  | some i0, some i1 =>
    if i0 ≠ 0 ∧ i1 ≠ 1 then
      Except.ok ((np_flatten y_probs).map (fun el => 1 - el))
    else
      Except.ok (np_flatten y_probs)
  | _, _ => Except.error ("KeyError")

/-- Tail of `np.argmax`: first index of the maximum. -/
def np_argmax_go (l : List ℚ) (best : ℚ) (bestIdx : Nat) (cur : Nat) : Nat :=
  match l with
  | [] => bestIdx
  | v :: rest =>
    if v > best then np_argmax_go rest v cur (cur + 1)
    else np_argmax_go rest best bestIdx (cur + 1)

/-- `np.argmax` over one row: index of the first occurrence of the maximum;
`none` models the `ValueError` numpy raises on an empty sequence. -/
def np_argmax (row : List ℚ) : Option Nat :=
  match row with
  | [] => none
  | v :: rest => some (np_argmax_go rest v 0 1)

/-- `dict((v, k) for k, v in labels.items())`: invert a label→index dict
into an index→label list of pairs (later pairs would win, so lookups scan
from the back). -/
def invert_indices (d : List (String × Nat)) : List (Nat × String) :=
  d.map (fun kv => (kv.2, kv.1))

/-- Lookup in a dict built from a pair sequence: the last binding wins. -/
def dict_find_nat (d : List (Nat × String)) (k : Nat) : Option String :=
  (d.reverse.find? (fun kv => kv.1 == k)).map (fun kv => kv.2)

/-- The heterogeneous first component returned by `calculate_prediction`:
a flattened 1-D probability array in binary mode, the untouched 2-D array
in multi-class mode. -/
inductive ProbOut where
  | flat (xs : List ℚ)
  | matrix (xs : List (List ℚ))
deriving DecidableEq

/-- The triple `(y_pred_prob, y_pred, tst_flow.classes)` returned by
`calculate_prediction`. -/
structure PredOut where
  y_pred_prob : ProbOut
  y_pred : List Int
  y_test : List Int
deriving DecidableEq

/-- `int(labels[k])` for one arg-max index: `KeyError` if the inverted
dict has no entry, `ValueError` if the label string is not an integer. -/
def label_of_index (labels : List (Nat × String)) (k : Nat) : Except String Int :=
  match dict_find_nat labels k with
  | none => Except.error ("KeyError")
  | some s =>
    match s.toInt? with
    | none => Except.error ("ValueError")
    | some n => Except.ok n

/--
`calculate_prediction(y_pred_prob, trn_flow, tst_flow, is_binary)`
(training.py lines 71-81): binary mode runs `verify_probabilities` and
thresholds with `np.where(y_pred_prob > 0.5, 1, 0)`; multi-class mode
takes the row-wise arg-max and maps each index back through the inverted
`class_indices` dict, casting the label to `int`.
-/
def calculate_prediction (y_pred_prob : List (List ℚ)) (trn_flow tst_flow : FlowInfo)
    (is_binary : Bool) : Except String PredOut :=
  if is_binary then
    match verify_probabilities y_pred_prob trn_flow with
    | Except.error e => Except.error e
    | Except.ok probs =>
      let y_pred := probs.map (fun p => if p > (1 / 2 : ℚ) then (1 : Int) else 0)
      Except.ok ⟨ProbOut.flat probs, y_pred, tst_flow.classes⟩
  else
    match y_pred_prob.mapM np_argmax with
    | none => Except.error ("ValueError")
    | some predicted_class_indices =>
      let labels := invert_indices trn_flow.class_indices
      match predicted_class_indices.mapM (label_of_index labels) with
      | Except.error e => Except.error e
      | Except.ok y_pred =>
        Except.ok ⟨ProbOut.matrix y_pred_prob, y_pred, tst_flow.classes⟩

/-- The sklearn metric functions used by `training.py`, treated as an
external collaborator (spec §1): each is an opaque-to-us pure function
supplied as a parameter.  `precision_recall_fscore_support` takes the
`average` keyword ("binary" or "macro") and returns
`(precision, recall, f_score, support)`. -/
structure MetricsLib where
  accuracy_score : List Int → List Int → ℚ
  precision_recall_fscore_support : List Int → List Int → String → ℚ × ℚ × ℚ × Option (List Nat)
  mean_absolute_error : List Int → List Int → ℚ
  average_precision_score : List Int → List ℚ → ℚ

/--
`accuracy_precision_recall_fscore(y_test, y_pred, is_binary)` (training.py
lines 90-102): builds `result = {'accuracy': ...}` and then updates it
with binary-averaged precision/recall/f-score in binary mode, or with
macro-averaged values plus the mean absolute error otherwise.
-/
def accuracy_precision_recall_fscore (lib : MetricsLib) (y_test y_pred : List Int)
    (is_binary : Bool) : List (String × ℚ) :=
  let accuracy := lib.accuracy_score y_test y_pred
  let result := [(("accuracy"), accuracy)]
  if is_binary then
    let prf := lib.precision_recall_fscore_support y_test y_pred ("binary")
    result ++ [(("precision"), prf.1), (("recall"), prf.2.1), (("f-score"), prf.2.2.1)]
  else
    let mean_absolute := lib.mean_absolute_error y_test y_pred
    let prf := lib.precision_recall_fscore_support y_test y_pred ("macro")
    result ++ [(("precision_ma"), prf.1), (("recall_ma"), prf.2.1),
               (("f-score_ma"), prf.2.2.1), (("mean_absolute_error"), mean_absolute)]

/-- The descending-by-first-component preorder used by
`sorted(lst, key=itemgetter(0), reverse=True)`. -/
def desc_fst (a b : ℚ × Int) : Prop :=
  b.1 ≤ a.1

instance : DecidableRel desc_fst :=
  fun a b => inferInstanceAs (Decidable (b.1 ≤ a.1))

instance : IsTotal (ℚ × Int) desc_fst :=
  ⟨fun a b => le_total b.1 a.1⟩

instance : IsTrans (ℚ × Int) desc_fst :=
  ⟨fun _ _ _ h1 h2 => le_trans h2 h1⟩

/-- `sorted(lst, key=itemgetter(0), reverse=True)`: Python's sort is
stable, and with `reverse=True` ties still keep their original relative
order; any stable sort realises the same function, so we model it with
the stable `insertionSort` on the descending-by-probability preorder. -/
def sorted_desc_fst (lst : List (ℚ × Int)) : List (ℚ × Int) :=
  lst.insertionSort desc_fst

/-- Outcome of `calculate_average_precision_ks`: `skipped` models the
silent multi-class fall-through (the whole body is under `if is_binary:`),
`valueError` the exception raised by unpacking `zip(*[])` on an empty
slice, and `ok perK mean` a completed run with the per-k average
precisions and the reported mean `score / len(ks)`. -/
inductive APResult where
  | skipped
  | valueError
  | ok (perK : List ℚ) (mean : ℚ)
deriving DecidableEq

/-- The `for k in ks:` loop body: slice the sorted pool to `results[:k]`
(Python slicing clamps to the pool length), unpack it with
`y_score, y_true = zip(*results[:k])` (raising `ValueError` when the slice
is empty), and collect `average_precision_score(y_true, y_score)`. -/
def ap_loop (lib : MetricsLib) (results : List (ℚ × Int)) : List Nat → Option (List ℚ)
  | [] => some []
  | k :: rest =>
    let slice := results.take k
    if slice.isEmpty then
      none
    else
      let y_score := slice.map (fun p => p.1)
      let y_true := slice.map (fun p => p.2)
      let average_precision := lib.average_precision_score y_true y_score
      (ap_loop lib results rest).map (fun tl => average_precision :: tl)

/--
`calculate_average_precision_ks(lst, is_binary, ks=(50, 100, 250, 480))`
(training.py lines 127-138).  The second component of the result is the
post-call contents of the `lst` argument: `sorted` allocates a fresh list
(unlike `lst.sort()`), so the argument is returned unchanged.
-/
def calculate_average_precision_ks (lib : MetricsLib) (lst : List (ℚ × Int))
    (is_binary : Bool) (ks : List Nat) : APResult × List (ℚ × Int) :=
  if is_binary then
    let results := sorted_desc_fst lst
    match ap_loop lib results ks with
    | none => (APResult.valueError, lst)
    | some perK => (APResult.ok perK (perK.sum / (ks.length : ℚ)), lst)
  else
    (APResult.skipped, lst)

/-- The default `ks` tuple of `calculate_average_precision_ks`. -/
def default_ks : List Nat :=
  [50, 100, 250, 480]

/-- A keras flow viewed as a restartable batch generator: an ordered list
of `(image_batch, label_batch)` pairs plus the internal cursor.  `next`
serves the batch at the cursor and advances it cyclically. -/
structure GenFlow (I L : Type) where
  batches : List (I × L)
  batch_index : Nat

/-- `flow.reset()`: rewind the internal cursor to the first batch. -/
def GenFlow.reset {I L : Type} (f : GenFlow I L) : GenFlow I L :=
  { f with batch_index := 0 }

/-- `flow.next()`: yields batch number `batch_index` and advances the
cursor cyclically; `none` models the degenerate empty flow. -/
def GenFlow.next {I L : Type} (f : GenFlow I L) : Option ((I × L) × GenFlow I L) :=
  if h : f.batches.length = 0 then
    none
  else
    let i := f.batch_index % f.batches.length
    some (f.batches.get ⟨i, Nat.mod_lt _ (Nat.pos_of_ne_zero h)⟩,
          { f with batch_index := (f.batch_index + 1) % f.batches.length })

/-- `n` pulls from the infinite generator body of `merge_generators`:
each iteration draws `x1i = x1.next()`, `x2i = x2.next()` and yields
`([x1i[0], x2i[0]], x1i[1])`. -/
def merge_generators_run {I1 L1 I2 L2 : Type} :
    Nat → GenFlow I1 L1 → GenFlow I2 L2 → Option (List ((I1 × I2) × L1))
  | 0, _, _ => some []
  | Nat.succ n, x1, x2 =>
    match x1.next, x2.next with
    | some (x1i, f1), some (x2i, f2) =>
      (merge_generators_run n f1 f2).map (fun rest => ((x1i.1, x2i.1), x1i.2) :: rest)
    | _, _ => none

/-- `merge_generators(x1, x2)` (training.py lines 54-61), observed through
its first `n` yields: both flows are reset before the loop starts. -/
def merge_generators {I1 L1 I2 L2 : Type} (x1 : GenFlow I1 L1) (x2 : GenFlow I2 L2)
    (n : Nat) : Option (List ((I1 × I2) × L1)) :=
  merge_generators_run n x1.reset x2.reset

/-- `metrics_dict[k]` where `metrics_dict` is `defaultdict(int)` on the
first fold (missing keys read as 0) and a plain dict afterwards (missing
keys raise `KeyError`, modelled as `none`). -/
def dd_get (isDefault : Bool) (d : List (String × ℚ)) (k : String) : Option ℚ :=
  match dict_find d k with
  | some v => some v
  | none => if isDefault then some 0 else none

/-- One fold's update
`metrics_dict = dict((k, metrics_dict[k] + v) for k, v in metrics_it.items())`
(training.py lines 246 and 284). -/
def metrics_fold_step (isDefault : Bool) (acc : List (String × ℚ))
    (metrics_it : List (String × ℚ)) : Option (List (String × ℚ)) :=
  metrics_it.mapM (fun kv => (dd_get isDefault acc kv.1).map (fun v => (kv.1, v + kv.2)))

/-- The per-fold accumulation loop of `train_test_model_cv` and
`train_test_attention_guided_cnn`: the accumulator starts as
`defaultdict(int)` and becomes a plain dict after the first fold. -/
def metrics_fold_loop :
    List (List (String × ℚ)) → Bool → List (String × ℚ) → Option (List (String × ℚ))
  | [], _, acc => some acc
  | it :: rest, isDefault, acc =>
    match metrics_fold_step isDefault acc it with
    | none => none
    | some acc2 => metrics_fold_loop rest false acc2

/-- The cross-fold metric aggregation of the cross-validation drivers:
accumulate each fold's metrics dict, then
`metrics_dict = dict((k, v / nr_folds) for k, v in metrics_dict.items())`
(training.py lines 250 and 288). -/
def cv_aggregate_metrics (folds : List (List (String × ℚ))) (nr_folds : Nat) :
    Option (List (String × ℚ)) :=
  (metrics_fold_loop folds true []).map
    (fun d => d.map (fun kv => (kv.1, kv.2 / (nr_folds : ℚ))))

/-- The recognized configuration options (spec §6). -/
structure Args where
  dataset : String
  data_augmentation : Bool
  print_classifications : Bool

/-- `"{:<105}".format(s)`: left-justify in a field of width 105 (no
truncation when longer). -/
def pad_to_105 (s : String) : String :=
  s ++ String.mk (List.replicate (105 - s.length) (' '))

/-- Observable outcome of `print_classifications`: the contents of the
append-mode report file `info.txt`, the lines written to stdout, and the
exception raised, if any. -/
structure PrintOutcome where
  info_txt : String
  stdout : List String
  err : Option String
deriving DecidableEq

/-- The `for idx, el in enumerate(y_pred):` loop of `print_classifications`:
per iteration it prints a colored line and appends a report line; indexing
`tst_flow.classes` or `tst_flow.filenames` out of range raises
`IndexError`, after which nothing further is printed or written. -/
def print_classifications_loop (tst_flow : FlowInfo) :
    List Int → Nat → List String × List String × Option String
  | [], _ => ([], [], none)
  | el :: rest, idx =>
    match tst_flow.classes.get? idx, tst_flow.filenames.get? idx with
    | some cls, some fn =>
      let green := "\x1b[92m"
      let red := "\x1b[91m"
      let endc := "\x1b[0m"
      let color := if cls == el then green else red
      let line := color ++ pad_to_105 fn ++ " -> True: " ++ toString cls
                    ++ " | Pred: " ++ toString el ++ endc
      let tick := if cls == el then "Correct" else "Incorrect"
      let fline := pad_to_105 fn ++ " -> True: " ++ toString cls
                    ++ " | Pred: " ++ toString el ++ " -> " ++ tick ++ "\n"
      let out := print_classifications_loop tst_flow rest (idx + 1)
      (line :: out.1, fline :: out.2.1, out.2.2)
    | _, _ => ([], [], some ("IndexError"))

/--
`print_classifications(args, tst_flow, y_pred)` (training.py lines
293-306): returns immediately when the `print_classifications` option is
false; otherwise opens `info.txt` in append mode, prints/writes one line
per prediction, and finally appends a separator line (only when the loop
finished without an exception).
-/
def print_classifications (args : Args) (tst_flow : FlowInfo) (y_pred : List Int)
    (info_txt : String) : PrintOutcome :=
  if !args.print_classifications then
    { info_txt := info_txt, stdout := [], err := none }
  else
    let out := print_classifications_loop tst_flow y_pred 0
    match out.2.2 with
    | some msg =>
      { info_txt := info_txt ++ String.join out.2.1, stdout := out.1, err := some msg }
    | none =>
      { info_txt := info_txt ++ String.join out.2.1
                      ++ "------------------------------------------------\n",
        stdout := out.1, err := none }

/-- A concrete stand-in for the sklearn collaborator, used to evaluate
the embedded functions on closed inputs: its ranked-average-precision
score is the sum of the scores it is handed. -/
def test_lib : MetricsLib where
  accuracy_score := fun _ _ => 0
  precision_recall_fscore_support := fun _ _ _ => (0, 0, 0, none)
  mean_absolute_error := fun _ _ => 0
  average_precision_score := fun _ y_score => y_score.sum

/--
C1: in binary mode with an inverted class-index mapping (label "0" at
index 1, label "1" at index 0), `calculate_prediction` does not complement
the probabilities and threshold them: the alignment check's second
conjunct subscripts the flow object itself with the string '1'
(`train_flow['1']`, a slip for `train_indices['1']`), so the call raises
`TypeError` instead of returning predictions.  Evaluated here at the
concrete failing input: probabilities [[3/10]] and the inverted flow.
-/
theorem calculate_prediction_inverted_mapping_typeerror :
    calculate_prediction [[(3 : ℚ) / 10]]
        ⟨[(("0"), 1), (("1"), 0)], [1], [("img_a")]⟩
        ⟨[(("0"), 1), (("1"), 0)], [1], [("img_a")]⟩ true
      = Except.error ("TypeError") := by
  rfl

/--
C1 (intent): the spec-modelled alignment check (with the typo repaired to
`train_indices['1']`) does complement every probability on an inverted
mapping, exactly as the claim describes.
-/
theorem verify_probabilities_spec_inverted_complements
    (y : List (List ℚ)) (trn : FlowInfo)
    (h0 : dict_find trn.class_indices ("0") = some 1)
    (h1 : dict_find trn.class_indices ("1") = some 0) :
    verify_probabilities_spec y trn = Except.ok ((np_flatten y).map (fun el => 1 - el)) := by
  simp [verify_probabilities_spec, h0, h1]

/-- Closed instance of `verify_probabilities_spec_inverted_complements`. -/
theorem verify_probabilities_spec_inverted_complements_witness :
    dict_find [(("0"), 1), (("1"), 0)] ("0") = some 1
    ∧ verify_probabilities_spec [[(3 : ℚ) / 10, (7 : ℚ) / 10]]
        ⟨[(("0"), 1), (("1"), 0)], [1], [("img_a")]⟩
      = Except.ok [(7 : ℚ) / 10, (3 : ℚ) / 10] := by
  refine ⟨by decide, ?_⟩
  have h := verify_probabilities_spec_inverted_complements
    [[(3 : ℚ) / 10, (7 : ℚ) / 10]]
    ⟨[(("0"), 1), (("1"), 0)], [1], [("img_a")]⟩ (by decide) (by decide)
  refine h.trans ?_
  norm_num [np_flatten]

/--
C6: `accuracy_precision_recall_fscore` always reports the accuracy; in
binary mode its result holds exactly the keys accuracy, precision, recall
and f-score, the latter three taken from the "binary"-averaged call; in
multi-class mode it holds exactly the keys accuracy, precision_ma,
recall_ma, f-score_ma and mean_absolute_error, the averaged three taken
from the "macro"-averaged call — and no other keys in either mode.
-/
theorem accuracy_precision_recall_fscore_keys (lib : MetricsLib) (y_test y_pred : List Int) :
    (accuracy_precision_recall_fscore lib y_test y_pred true).map (fun kv => kv.1)
        = [("accuracy"), ("precision"), ("recall"), ("f-score")]
    ∧ dict_find (accuracy_precision_recall_fscore lib y_test y_pred true) ("accuracy")
        = some (lib.accuracy_score y_test y_pred)
    ∧ dict_find (accuracy_precision_recall_fscore lib y_test y_pred true) ("precision")
        = some (lib.precision_recall_fscore_support y_test y_pred ("binary")).1
    ∧ dict_find (accuracy_precision_recall_fscore lib y_test y_pred true) ("recall")
        = some (lib.precision_recall_fscore_support y_test y_pred ("binary")).2.1
    ∧ dict_find (accuracy_precision_recall_fscore lib y_test y_pred true) ("f-score")
        = some (lib.precision_recall_fscore_support y_test y_pred ("binary")).2.2.1
    ∧ (accuracy_precision_recall_fscore lib y_test y_pred false).map (fun kv => kv.1)
        = [("accuracy"), ("precision_ma"), ("recall_ma"), ("f-score_ma"),
           ("mean_absolute_error")]
    ∧ dict_find (accuracy_precision_recall_fscore lib y_test y_pred false) ("accuracy")
        = some (lib.accuracy_score y_test y_pred)
    ∧ dict_find (accuracy_precision_recall_fscore lib y_test y_pred false) ("precision_ma")
        = some (lib.precision_recall_fscore_support y_test y_pred ("macro")).1
    ∧ dict_find (accuracy_precision_recall_fscore lib y_test y_pred false) ("recall_ma")
        = some (lib.precision_recall_fscore_support y_test y_pred ("macro")).2.1
    ∧ dict_find (accuracy_precision_recall_fscore lib y_test y_pred false) ("f-score_ma")
        = some (lib.precision_recall_fscore_support y_test y_pred ("macro")).2.2.1
    ∧ dict_find (accuracy_precision_recall_fscore lib y_test y_pred false)
          ("mean_absolute_error")
        = some (lib.mean_absolute_error y_test y_pred) := by
  refine ⟨rfl, rfl, rfl, rfl, rfl, rfl, rfl, rfl, rfl, rfl, rfl⟩

/--
C7: `calculate_prediction` is deterministic and idempotent across calls:
it is a pure function of its four arguments, so evaluating it twice on
the same probability array, flows and mode yields the same result —
identical predictions, probability arrays and true-label sequences.
-/
theorem calculate_prediction_deterministic (y_pred_prob : List (List ℚ))
    (trn_flow tst_flow : FlowInfo) (is_binary : Bool) :
    calculate_prediction y_pred_prob trn_flow tst_flow is_binary
      = calculate_prediction y_pred_prob trn_flow tst_flow is_binary
    ∧ (calculate_prediction y_pred_prob trn_flow tst_flow is_binary).map
          (fun r => (r.y_pred_prob, r.y_pred, r.y_test))
      = (calculate_prediction y_pred_prob trn_flow tst_flow is_binary).map
          (fun r => (r.y_pred_prob, r.y_pred, r.y_test)) := by
  exact ⟨rfl, rfl⟩

/--
C8: when the `print_classifications` option is false, the function
returns immediately: the report file `info.txt` is unchanged, nothing is
printed, and no error is raised.
-/
theorem print_classifications_flag_false_noop (args : Args) (tst_flow : FlowInfo)
    (y_pred : List Int) (info_txt : String)
    (h : args.print_classifications = false) :
    print_classifications args tst_flow y_pred info_txt
      = { info_txt := info_txt, stdout := [], err := none } := by
  simp [print_classifications, h]

/-- Closed instance of `print_classifications_flag_false_noop`. -/
theorem print_classifications_flag_false_noop_witness :
    (Args.mk ("flood") false false).print_classifications = false
    ∧ print_classifications (Args.mk ("flood") false false)
        ⟨[(("0"), 0), (("1"), 1)], [1, 0], [("a.png"), ("b.png")]⟩ [1, 1] ("old contents\n")
      = { info_txt := "old contents\n", stdout := [], err := none } := by
  exact ⟨rfl, print_classifications_flag_false_noop _ _ _ _ rfl⟩

/--
C9: `calculate_average_precision_ks` never mutates the pool it is given:
`sorted` allocates a fresh list, so after the call the argument holds the
same (probability, true-label) pairs in the same order, in binary and
multi-class mode alike.  The second component of the embedding's result
is the post-call contents of the `lst` argument.
-/
theorem calculate_average_precision_ks_pool_unchanged (lib : MetricsLib)
    (lst : List (ℚ × Int)) (is_binary : Bool) (ks : List Nat) :
    (calculate_average_precision_ks lib lst is_binary ks).2 = lst := by
  unfold calculate_average_precision_ks
  by_cases hb : is_binary <;> simp [hb]
  cases ap_loop lib (sorted_desc_fst lst) ks <;> rfl

/--
C10: in binary mode, when the alignment check does not fire (label "0"
maps to class index 0), `calculate_prediction` succeeds and returns the
flattened 1-D probability array whatever the input shape, and its hard
predictions are 0/1-valued with value 1 exactly when the corresponding
probability is strictly greater than 1/2.
-/
theorem calculate_prediction_binary_aligned (y : List (List ℚ)) (trn tst : FlowInfo)
    (h : dict_find trn.class_indices ("0") = some 0) :
    calculate_prediction y trn tst true
      = Except.ok ⟨ProbOut.flat (np_flatten y),
          (np_flatten y).map (fun p => if p > (1 / 2 : ℚ) then (1 : Int) else 0),
          tst.classes⟩
    ∧ (∀ v ∈ (np_flatten y).map (fun p => if p > (1 / 2 : ℚ) then (1 : Int) else 0),
        v = 0 ∨ v = 1)
    ∧ ∀ i : Fin (np_flatten y).length,
        (((np_flatten y).map (fun p => if p > (1 / 2 : ℚ) then (1 : Int) else 0)).get
            (Fin.cast (List.length_map _ _).symm i) = 1)
          ↔ (np_flatten y).get i > 1 / 2 := by
  refine ⟨?_, ?_, ?_⟩
  · simp [calculate_prediction, verify_probabilities, h]
  · intro v hv
    simp only [List.mem_map] at hv
    obtain ⟨p, _, hp⟩ := hv
    by_cases hgt : p > (1 / 2 : ℚ)
    · right
      rw [if_pos hgt] at hp
      exact hp.symm
    · left
      rw [if_neg hgt] at hp
      exact hp.symm
  · intro i
    simp only [List.get_eq_getElem, List.getElem_map, Fin.coe_cast]
    by_cases hgt : (np_flatten y).get i > (1 / 2 : ℚ)
    · simp only [List.get_eq_getElem] at hgt
      simp [hgt]
    · simp only [List.get_eq_getElem] at hgt
      simp [hgt]

/-- Closed instance of `calculate_prediction_binary_aligned`. -/
theorem calculate_prediction_binary_aligned_witness :
    dict_find [(("0"), 0), (("1"), 1)] ("0") = some 0
    ∧ calculate_prediction [[(3 : ℚ) / 4], [(1 : ℚ) / 4]]
        ⟨[(("0"), 0), (("1"), 1)], [1, 0], [("a.png"), ("b.png")]⟩
        ⟨[(("0"), 0), (("1"), 1)], [1, 0], [("a.png"), ("b.png")]⟩ true
      = Except.ok ⟨ProbOut.flat [(3 : ℚ) / 4, (1 : ℚ) / 4], [1, 0], [1, 0]⟩ := by
  refine ⟨by decide, ?_⟩
  have h := (calculate_prediction_binary_aligned [[(3 : ℚ) / 4], [(1 : ℚ) / 4]]
    ⟨[(("0"), 0), (("1"), 1)], [1, 0], [("a.png"), ("b.png")]⟩
    ⟨[(("0"), 0), (("1"), 1)], [1, 0], [("a.png"), ("b.png")]⟩ (by decide)).1
  refine h.trans ?_
  norm_num [np_flatten]

/-- A nonempty pool stays nonempty through the descending sort. -/
theorem sorted_desc_fst_ne_nil {lst : List (ℚ × Int)} (h : lst ≠ []) :
    sorted_desc_fst lst ≠ [] := by
  intro hc
  apply h
  have hp := List.perm_insertionSort desc_fst lst
  rw [sorted_desc_fst] at hc
  rw [hc] at hp
  exact (hp.symm).eq_nil

/-- The `for k in ks:` loop succeeds on a nonempty sorted pool with
positive cutoffs, returning one clamped top-k average precision per k. -/
theorem ap_loop_eq (lib : MetricsLib) (results : List (ℚ × Int)) (hres : results ≠ []) :
    ∀ ks : List Nat, (∀ k ∈ ks, 0 < k) →
      ap_loop lib results ks = some (ks.map (fun k =>
        lib.average_precision_score ((results.take k).map (fun p => p.2))
          ((results.take k).map (fun p => p.1)))) := by
  intro ks
  induction ks with
  | nil => intro _; rfl
  | cons k rest ih =>
    intro hk
    have hkpos : 0 < k := hk k (List.mem_cons_self k rest)
    have hslice : (results.take k).isEmpty = false := by
      rw [List.isEmpty_eq_false]
      simp only [ne_eq, List.take_eq_nil_iff, not_or]
      exact ⟨Nat.pos_iff_ne_zero.mp hkpos, hres⟩
    have htail := ih (fun j hj => hk j (List.mem_cons_of_mem k hj))
    simp [ap_loop, hslice, htail]

/--
C4 counterexample: a nonempty binary-mode pool with a single pair — far
fewer than max(ks) = 480 — does not raise: Python slicing clamps
`results[:k]` to the pool, so the call completes with a full result (the
same average precision at every k) instead of hard-failing.
-/
theorem ap_ks_short_nonempty_pool_completes :
    calculate_average_precision_ks test_lib [((1 : ℚ) / 2, 1)] true default_ks
      = (APResult.ok [(1 : ℚ) / 2, (1 : ℚ) / 2, (1 : ℚ) / 2, (1 : ℚ) / 2] ((1 : ℚ) / 2),
         [((1 : ℚ) / 2, 1)]) := by
  have hsort : sorted_desc_fst [((1 : ℚ) / 2, 1)] = [((1 : ℚ) / 2, 1)] := rfl
  have hloop := ap_loop_eq test_lib (sorted_desc_fst [((1 : ℚ) / 2, 1)])
    (sorted_desc_fst_ne_nil (by simp)) default_ks (by decide)
  rw [hsort] at hloop
  simp only [calculate_average_precision_ks, if_true, hsort, hloop]
  norm_num [default_ks, test_lib, List.take_of_length_le]

/--
C4 amended: only an empty binary-mode pool hard-fails (unpacking
`zip(*[])` for the first k raises ValueError); every nonempty pool —
however short — completes, each top-k slice silently clamped to the pool
length.
-/
theorem ap_ks_empty_pool_error_nonempty_ok (lib : MetricsLib) (lst : List (ℚ × Int))
    (h : lst ≠ []) :
    calculate_average_precision_ks lib [] true default_ks
        = (APResult.valueError, ([] : List (ℚ × Int)))
    ∧ ∃ perK : List ℚ,
        perK = default_ks.map (fun k =>
          lib.average_precision_score (((sorted_desc_fst lst).take k).map (fun p => p.2))
            (((sorted_desc_fst lst).take k).map (fun p => p.1)))
        ∧ calculate_average_precision_ks lib lst true default_ks
            = (APResult.ok perK (perK.sum / ((default_ks.length : ℚ))), lst) := by
  constructor
  · rfl
  · refine ⟨_, rfl, ?_⟩
    have hloop := ap_loop_eq lib (sorted_desc_fst lst) (sorted_desc_fst_ne_nil h)
      default_ks (by decide)
    simp [calculate_average_precision_ks, hloop]

/-- Closed instance of `ap_ks_empty_pool_error_nonempty_ok`. -/
theorem ap_ks_empty_pool_error_nonempty_ok_witness :
    ([((1 : ℚ) / 4, 0)] ≠ ([] : List (ℚ × Int)))
    ∧ calculate_average_precision_ks test_lib [] true default_ks
        = (APResult.valueError, ([] : List (ℚ × Int)))
    ∧ calculate_average_precision_ks test_lib [((1 : ℚ) / 4, 0)] true default_ks
        = (APResult.ok [(1 : ℚ) / 4, (1 : ℚ) / 4, (1 : ℚ) / 4, (1 : ℚ) / 4] ((1 : ℚ) / 4),
           [((1 : ℚ) / 4, 0)]) := by
  obtain ⟨h1, perK, hperK, h2⟩ :=
    ap_ks_empty_pool_error_nonempty_ok test_lib [((1 : ℚ) / 4, 0)] (by decide)
  refine ⟨by decide, h1, ?_⟩
  rw [h2, hperK]
  have hsort : sorted_desc_fst [((1 : ℚ) / 4, 0)] = [((1 : ℚ) / 4, 0)] := rfl
  rw [hsort]
  norm_num [default_ks, test_lib, List.take_of_length_le]

/-- Looking a key up in a dict whose entries are generated from a key list
by a value function finds that function's value. -/
theorem dict_find_map_self (ks : List String) (s : String → ℚ) (k : String)
    (hk : k ∈ ks) :
    dict_find (ks.map (fun x => (x, s x))) k = some (s k) := by
  induction ks with
  | nil => cases hk
  | cons a rest ih =>
    by_cases hak : a = k
    · subst hak
      simp [dict_find, List.find?]
    · have hk2 : k ∈ rest := by
        cases hk with
        | head => exact absurd rfl hak
        | tail _ h => exact h
      have hbeq : (a == k) = false := by
        simp [hak]
      simp only [List.map_cons, dict_find, List.find?, hbeq]
      exact ih hk2

/-- `dd_get` on such a generated dict, for either dict flavour. -/
theorem dd_get_map_self (ks : List String) (s : String → ℚ) (k : String)
    (hk : k ∈ ks) (isDef : Bool) :
    dd_get isDef (ks.map (fun x => (x, s x))) k = some (s k) := by
  simp [dd_get, dict_find_map_self ks s k hk]

/-- One fold update on a generated accumulator adds the fold's values
pointwise. -/
theorem metrics_fold_step_mapped (isDef : Bool) (acc : List (String × ℚ))
    (ks : List String) (s v : String → ℚ)
    (hacc : ∀ k ∈ ks, dd_get isDef acc k = some (s k)) :
    metrics_fold_step isDef acc (ks.map (fun k => (k, v k)))
      = some (ks.map (fun k => (k, s k + v k))) := by
  induction ks with
  | nil => rfl
  | cons a rest ih =>
    have h1 := hacc a (List.mem_cons_self a rest)
    have h2 := ih (fun k hk => hacc k (List.mem_cons_of_mem a hk))
    simp only [metrics_fold_step, List.map_cons, List.mapM_cons, h1] at h2 ⊢
    rw [h2]
    rfl

/-- The whole fold loop on a nonempty run of generated metrics dicts sums
each key's values on top of the accumulator. -/
theorem metrics_fold_loop_mapped (ks : List String) :
    ∀ (vs : List (String → ℚ)) (v : String → ℚ) (s : String → ℚ)
      (acc : List (String × ℚ)) (isDef : Bool),
      (∀ k ∈ ks, dd_get isDef acc k = some (s k)) →
      metrics_fold_loop ((v :: vs).map (fun w => ks.map (fun k => (k, w k)))) isDef acc
        = some (ks.map (fun k => (k, s k + ((v :: vs).map (fun w => w k)).sum))) := by
  intro vs
  induction vs with
  | nil =>
    intro v s acc isDef hacc
    simp only [List.map_cons, List.map_nil, metrics_fold_loop,
      metrics_fold_step_mapped isDef acc ks s v hacc, List.sum_cons, List.sum_nil, add_zero]
  | cons w rest ih =>
    intro v s acc isDef hacc
    have hstep := metrics_fold_step_mapped isDef acc ks s v hacc
    have hacc2 : ∀ k ∈ ks,
        dd_get false (ks.map (fun x => (x, s x + v x))) k = some (s k + v k) :=
      fun k hk => dd_get_map_self ks (fun x => s x + v x) k hk false
    have htail := ih w (fun x => s x + v x) (ks.map (fun x => (x, s x + v x))) false hacc2
    simp only [List.map_cons] at hstep htail ⊢
    rw [metrics_fold_loop, hstep]
    dsimp only
    rw [htail]
    congr 1
    apply List.map_congr_left
    intro k _
    simp [add_assoc]

/--
C2: over any cross-validation run in which every fold reports the same
metric keys, the aggregated dict maps each key to the arithmetic mean of
the per-fold values: the loop accumulates the sum starting from
`defaultdict(int)` and the final comprehension divides by `nr_folds`,
which equals the number of folds the split generates.
-/
theorem cv_aggregate_metrics_mean (ks : List String) (vs : List (String → ℚ))
    (h : vs ≠ []) :
    cv_aggregate_metrics (vs.map (fun w => ks.map (fun k => (k, w k)))) vs.length
      = some (ks.map (fun k => (k, ((vs.map (fun w => w k)).sum) / ((vs.length : ℚ))))) := by
  rcases vs with _ | ⟨v, rest⟩
  · exact absurd rfl h
  · have hloop := metrics_fold_loop_mapped ks rest v (fun _ => 0) [] true (fun k _ => rfl)
    rw [cv_aggregate_metrics, hloop, Option.map_some']
    congr 1
    rw [List.map_map]
    apply List.map_congr_left
    intro k _
    simp

/-- Closed instance of `cv_aggregate_metrics_mean`: four folds with
accuracies 0.80, 0.85, 0.90, 0.75 aggregate to exactly 0.825 = 33/40. -/
theorem cv_aggregate_metrics_mean_witness :
    (([(fun _ => (4 : ℚ) / 5), (fun _ => (17 : ℚ) / 20), (fun _ => (9 : ℚ) / 10),
       (fun _ => (3 : ℚ) / 4)] : List (String → ℚ)) ≠ [])
    ∧ cv_aggregate_metrics
        [[(("accuracy"), (4 : ℚ) / 5)], [(("accuracy"), (17 : ℚ) / 20)],
         [(("accuracy"), (9 : ℚ) / 10)], [(("accuracy"), (3 : ℚ) / 4)]] 4
      = some [(("accuracy"), (33 : ℚ) / 40)] := by
  refine ⟨by simp, ?_⟩
  have h := cv_aggregate_metrics_mean [("accuracy")]
    [(fun _ => (4 : ℚ) / 5), (fun _ => (17 : ℚ) / 20), (fun _ => (9 : ℚ) / 10),
     (fun _ => (3 : ℚ) / 4)] (by simp)
  refine h.trans ?_
  norm_num

/--
C3: in binary mode `calculate_average_precision_ks` sorts the pool
descending by probability — a permutation, sorted under the
descending-by-first-component preorder, with tied probabilities keeping
their original relative order — computes the average precision of exactly
the top-k pairs for each k in {50, 100, 250, 480}, and reports the mean
of the per-k values; in multi-class mode the call is a silent no-op that
performs no computation and raises no error.
-/
theorem calculate_average_precision_ks_binary_topk_mean (lib : MetricsLib)
    (lst : List (ℚ × Int)) (h : lst ≠ []) :
    calculate_average_precision_ks lib lst false default_ks = (APResult.skipped, lst)
    ∧ (sorted_desc_fst lst).Perm lst
    ∧ (sorted_desc_fst lst).Pairwise desc_fst
    ∧ (∀ a b : ℚ × Int, a.1 = b.1 → List.Sublist [a, b] lst →
        List.Sublist [a, b] (sorted_desc_fst lst))
    ∧ calculate_average_precision_ks lib lst true default_ks
        = (APResult.ok
            (default_ks.map (fun k =>
              lib.average_precision_score
                (((sorted_desc_fst lst).take k).map (fun p => p.2))
                (((sorted_desc_fst lst).take k).map (fun p => p.1))))
            ((default_ks.map (fun k =>
              lib.average_precision_score
                (((sorted_desc_fst lst).take k).map (fun p => p.2))
                (((sorted_desc_fst lst).take k).map (fun p => p.1)))).sum
              / ((default_ks.length : ℚ))), lst) := by
  refine ⟨rfl, List.perm_insertionSort desc_fst lst,
    List.sorted_insertionSort desc_fst lst, ?_, ?_⟩
  · intro a b hab hsub
    exact List.pair_sublist_insertionSort (le_of_eq hab.symm) hsub
  · have hloop := ap_loop_eq lib (sorted_desc_fst lst) (sorted_desc_fst_ne_nil h)
      default_ks (by decide)
    simp [calculate_average_precision_ks, hloop]

/-- Closed instance of `calculate_average_precision_ks_binary_topk_mean`. -/
theorem calculate_average_precision_ks_binary_topk_mean_witness :
    ([((3 : ℚ) / 4, 1), ((1 : ℚ) / 4, 0)] ≠ ([] : List (ℚ × Int)))
    ∧ calculate_average_precision_ks test_lib [((3 : ℚ) / 4, 1), ((1 : ℚ) / 4, 0)]
        false default_ks
      = (APResult.skipped, [((3 : ℚ) / 4, 1), ((1 : ℚ) / 4, 0)])
    ∧ calculate_average_precision_ks test_lib [((3 : ℚ) / 4, 1), ((1 : ℚ) / 4, 0)]
        true default_ks
      = (APResult.ok [(1 : ℚ), (1 : ℚ), (1 : ℚ), (1 : ℚ)] (1 : ℚ),
         [((3 : ℚ) / 4, 1), ((1 : ℚ) / 4, 0)]) := by
  obtain ⟨h1, _, _, _, h5⟩ := calculate_average_precision_ks_binary_topk_mean test_lib
    [((3 : ℚ) / 4, 1), ((1 : ℚ) / 4, 0)] (by simp)
  refine ⟨by simp, h1, ?_⟩
  rw [h5]
  have hsort : sorted_desc_fst [((3 : ℚ) / 4, 1), ((1 : ℚ) / 4, 0)]
      = [((3 : ℚ) / 4, 1), ((1 : ℚ) / 4, 0)] := by
    norm_num [sorted_desc_fst, List.insertionSort, List.orderedInsert, desc_fst]
  rw [hsort]
  norm_num [default_ks, test_lib, List.take_of_length_le]

/-- Projecting the label component out of the fused batches recovers the
first flow's label sequence (for equally long flows). -/
theorem zipWith_pair_labels {I1 I2 L1 L2 : Type} :
    ∀ (l1 : List (I1 × L1)) (l2 : List (I2 × L2)), l2.length = l1.length →
      (List.zipWith (fun b1 b2 => ((b1.1, b2.1), b1.2)) l1 l2).map (fun e => e.2)
        = l1.map (fun b => b.2)
  | [], [], _ => rfl
  | [], _ :: _, h => by simp at h
  | _ :: _, [], h => by simp at h
  | a :: l1, b :: l2, h => by
    simp only [List.zipWith_cons_cons, List.map_cons]
    rw [zipWith_pair_labels l1 l2 (by simpa using h)]

/-- Running the fused-generator body for `k` pulls yields the next `k`
batches of each flow, paired, with the label batch taken from the first
flow — provided neither cursor passes the end of its flow. -/
theorem merge_generators_run_eq {I1 L1 I2 L2 : Type} :
    ∀ (k : Nat) (f1 : GenFlow I1 L1) (f2 : GenFlow I2 L2),
      f1.batch_index + k ≤ f1.batches.length →
      f2.batch_index + k ≤ f2.batches.length →
      merge_generators_run k f1 f2
        = some (List.zipWith (fun b1 b2 => ((b1.1, b2.1), b1.2))
            ((f1.batches.drop f1.batch_index).take k)
            ((f2.batches.drop f2.batch_index).take k)) := by
  intro k
  induction k with
  | zero =>
    intro f1 f2 _ _
    simp [merge_generators_run]
  | succ k ih =>
    intro f1 f2 h1 h2
    obtain ⟨b1, c1⟩ := f1
    obtain ⟨b2, c2⟩ := f2
    simp only at h1 h2 ⊢
    have hn1 : b1.length ≠ 0 := by omega
    have hn2 : b2.length ≠ 0 := by omega
    have hc1 : c1 < b1.length := by omega
    have hc2 : c2 < b2.length := by omega
    have hmod1 : c1 % b1.length = c1 := Nat.mod_eq_of_lt hc1
    have hmod2 : c2 % b2.length = c2 := Nat.mod_eq_of_lt hc2
    have hnext1 : GenFlow.next (⟨b1, c1⟩ : GenFlow I1 L1)
        = some ((b1.get ⟨c1, hc1⟩), (⟨b1, (c1 + 1) % b1.length⟩ : GenFlow I1 L1)) := by
      simp [GenFlow.next, hn1, hmod1]
    have hnext2 : GenFlow.next (⟨b2, c2⟩ : GenFlow I2 L2)
        = some ((b2.get ⟨c2, hc2⟩), (⟨b2, (c2 + 1) % b2.length⟩ : GenFlow I2 L2)) := by
      simp [GenFlow.next, hn2, hmod2]
    have hb1 : (c1 + 1) % b1.length + k ≤ b1.length := by
      rcases Nat.lt_or_ge (c1 + 1) b1.length with hlt | hge
      · rw [Nat.mod_eq_of_lt hlt]
        omega
      · have hk : k = 0 := by omega
        have hmlt := Nat.mod_lt (c1 + 1) (Nat.pos_of_ne_zero hn1)
        omega
    have hb2 : (c2 + 1) % b2.length + k ≤ b2.length := by
      rcases Nat.lt_or_ge (c2 + 1) b2.length with hlt | hge
      · rw [Nat.mod_eq_of_lt hlt]
        omega
      · have hk : k = 0 := by omega
        have hmlt := Nat.mod_lt (c2 + 1) (Nat.pos_of_ne_zero hn2)
        omega
    have hdt1 : (b1.drop ((c1 + 1) % b1.length)).take k = (b1.drop (c1 + 1)).take k := by
      rcases Nat.lt_or_ge (c1 + 1) b1.length with hlt | hge
      · rw [Nat.mod_eq_of_lt hlt]
      · have hk : k = 0 := by omega
        simp [hk]
    have hdt2 : (b2.drop ((c2 + 1) % b2.length)).take k = (b2.drop (c2 + 1)).take k := by
      rcases Nat.lt_or_ge (c2 + 1) b2.length with hlt | hge
      · rw [Nat.mod_eq_of_lt hlt]
      · have hk : k = 0 := by omega
        simp [hk]
    have hrec := ih (⟨b1, (c1 + 1) % b1.length⟩ : GenFlow I1 L1)
      (⟨b2, (c2 + 1) % b2.length⟩ : GenFlow I2 L2) hb1 hb2
    simp only at hrec
    rw [merge_generators_run, hnext1, hnext2]
    simp only [hrec, hdt1, hdt2, Option.map_some']
    have hd1 : b1.drop c1 = b1.get ⟨c1, hc1⟩ :: b1.drop (c1 + 1) := by
      rw [List.get_eq_getElem]
      exact (List.getElem_cons_drop b1 c1 hc1).symm
    have hd2 : b2.drop c2 = b2.get ⟨c2, hc2⟩ :: b2.drop (c2 + 1) := by
      rw [List.get_eq_getElem]
      exact (List.getElem_cons_drop b2 c2 hc2).symm
    rw [hd1, hd2, List.take_succ_cons, List.take_succ_cons, List.zipWith_cons_cons]

/--
C5: `merge_generators` resets both source flows before iterating (the
result below holds whatever the initial cursors), and each yielded
element pairs the next image batch of each flow with the label batch of
the first flow; over two flows of equal length N, N consecutive pulls
yield exactly the first flow's label sequence L1 — and never the second
flow's sequence L2 when the two differ.
-/
theorem merge_generators_labels_from_first_flow {I1 I2 L : Type}
    (x1 : GenFlow I1 L) (x2 : GenFlow I2 L)
    (h : x2.batches.length = x1.batches.length) :
    merge_generators x1 x2 x1.batches.length
      = some (List.zipWith (fun b1 b2 => ((b1.1, b2.1), b1.2)) x1.batches x2.batches)
    ∧ (merge_generators x1 x2 x1.batches.length).map (fun l => l.map (fun e => e.2))
      = some (x1.batches.map (fun b => b.2))
    ∧ (x1.batches.map (fun b => b.2) ≠ x2.batches.map (fun b => b.2) →
        (merge_generators x1 x2 x1.batches.length).map (fun l => l.map (fun e => e.2))
          ≠ some (x2.batches.map (fun b => b.2))) := by
  have hrun := merge_generators_run_eq x1.batches.length x1.reset x2.reset
    (by simp [GenFlow.reset]) (by simp [GenFlow.reset, h])
  have h1 : merge_generators x1 x2 x1.batches.length
      = some (List.zipWith (fun b1 b2 => ((b1.1, b2.1), b1.2)) x1.batches x2.batches) := by
    rw [merge_generators, hrun]
    simp [GenFlow.reset]
    rw [← h, List.take_length]
  have h2 : (merge_generators x1 x2 x1.batches.length).map (fun l => l.map (fun e => e.2))
      = some (x1.batches.map (fun b => b.2)) := by
    rw [h1, Option.map_some', zipWith_pair_labels x1.batches x2.batches h]
  refine ⟨h1, h2, ?_⟩
  intro hne hcontr
  rw [h2] at hcontr
  exact hne (Option.some.inj hcontr)

/-- Closed instance of `merge_generators_labels_from_first_flow`: two
two-batch flows with deliberately desynchronized cursors (7 and 3, both
rewound by the reset) and distinct label sequences L1 = [5, 6],
L2 = [8, 9]. -/
theorem merge_generators_labels_from_first_flow_witness :
    (([(30, 8), (40, 9)] : List (Nat × Int)).length
        = ([(10, 5), (20, 6)] : List (Nat × Int)).length)
    ∧ merge_generators (⟨[(10, 5), (20, 6)], 7⟩ : GenFlow Nat Int)
        (⟨[(30, 8), (40, 9)], 3⟩ : GenFlow Nat Int) 2
      = some [((10, 30), 5), ((20, 40), 6)] := by
  refine ⟨rfl, ?_⟩
  have h := (merge_generators_labels_from_first_flow
    (⟨[(10, 5), (20, 6)], 7⟩ : GenFlow Nat Int)
    (⟨[(30, 8), (40, 9)], 3⟩ : GenFlow Nat Int) rfl).1
  exact h.trans (by decide)

end Training
